import Mathlib

/-!
Verification of the settings DAO module (src/lib/api/settings/lib/dao.js)
and the passport local-strategy module of the employee-scheduling-api
repository, as a shallow embedding in Lean 4.

JavaScript objects are embedded as association lists of string keys to
JSON-like values; the asynchronous try/catch structure of each DAO
operation is embedded by factoring the operation into a pure core over
the outcome of the single backend call it awaits, plus the composition
with a deterministic model of the backend state. Logging is embedded as
an explicit list of log lines returned beside the result.

The Couchbase client wrapper (src/lib/config/couchbase) is referenced by
the DAO but its source is not part of the repository snapshot; its
operations are modelled from the specification (sections 4 and 6) and each
such definition is marked accordingly in its doc comment.
-/

set_option autoImplicit false

namespace SettingDao

/-- A JSON-like value stored in a document field. -/
inductive JVal where
  | str (s : String)
  | num (n : Nat)
  deriving DecidableEq, Repr

/-- A JavaScript object: an association list from keys to values.
Lookup returns the first binding of the key. -/
abbrev Obj := List (String × JVal)

section KV

variable {β : Type}

/-- Property read `o[k]`: first binding of key `k`, if any. -/
def lookupKey (k : String) : List (String × β) → Option β
  | [] => none
  | p :: rest => if p.1 = k then some p.2 else lookupKey k rest

/-- Property write `o[k] = v`: replaces the binding in place when the key
exists, appends it otherwise (JavaScript key-order semantics). -/
def setKey (k : String) (v : β) : List (String × β) → List (String × β)
  | [] => [(k, v)]
  | p :: rest => if p.1 = k then (k, v) :: rest else p :: setKey k v rest

/-- Property deletion `delete o[k]`. -/
def eraseKey (k : String) (l : List (String × β)) : List (String × β) :=
  l.filter (fun p => p.1 != k)

end KV

/-- `Object.assign(target, source)`: writes each binding of `source` into
`target`, in order. -/
def assignPairs (target source : Obj) : Obj :=
  source.foldl (fun acc p => setKey p.1 p.2 acc) target

/-- A well-formed JavaScript object has no duplicate keys. -/
def objWF (o : Obj) : Prop := (o.map Prod.fst).Nodup

instance (o : Obj) : Decidable (objWF o) := by
  unfold objWF; infer_instance

/-- The document-type discriminator of this repository (`DOC_TYPE`). -/
def DOC_TYPE : String := "setting"

/-- Backend-native (Couchbase) errors, distinguishing the outcomes the
backend reports distinguishably per the external-interface contract. -/
inductive DBError where
  | keyNotFound
  | keyAlreadyExists
  | casMismatch
  | other (msg : String)
  deriving DecidableEq, Repr

/-- The message carried by a backend-native error. -/
def DBError.message : DBError → String
  | .keyNotFound => "key does not exist"
  | .keyAlreadyExists => "key already exists"
  | .casMismatch => "CAS value does not match"
  | .other msg => msg

/-- The uniform error taxonomy exposed to DAO callers. -/
inductive DaoError where
  | notFound
  | alreadyExists
  | versionConflict
  | backendError (cause : String)
  deriving DecidableEq, Repr

/-- Modelled from the spec: `db.handleError`, the error-translation
function of the missing Couchbase wrapper module; every backend-specific
failure is re-thrown as one of the taxonomy kinds. -/
def handleError : DBError → DaoError
  | .keyNotFound => .notFound
  | .keyAlreadyExists => .alreadyExists
  | .casMismatch => .versionConflict
  | .other msg => .backendError msg

/-- A document as stored by the backend: field set plus the version (CAS)
metadata the backend tracks separately. -/
structure StoredDoc where
  cas : Nat
  value : Obj
  deriving DecidableEq, Repr

/-- The backend bucket state, plus the state of the UUID generator. -/
structure Store where
  docs : List (String × StoredDoc)
  uuidCtr : Nat
  deriving DecidableEq, Repr

/-- Result of a backend mutation: the new version (CAS) of the document. -/
structure MutationResult where
  cas : Nat
  deriving DecidableEq, Repr

/-- Modelled from the spec: `db.get(id)` of the missing Couchbase wrapper;
returns value and version, fails distinguishably when not found. -/
def dbGet (st : Store) (id : String) : Except DBError StoredDoc :=
  match lookupKey id st.docs with
  | some d => .ok d
  | none => .error .keyNotFound

/-- Modelled from the spec: `db.insert(id, payload, durabilityOptions)` of
the missing Couchbase wrapper; writes a new document with an initial
version, fails distinguishably on id collision. -/
def dbInsert (st : Store) (id : String) (doc : Obj) :
    Except DBError (MutationResult × Store) :=
  match lookupKey id st.docs with
  | some _ => .error .keyAlreadyExists
  | none =>
      .ok (⟨1⟩, { st with docs := st.docs ++ [(id, ⟨1, doc⟩)] })

/-- Modelled from the spec: `db.replace(id, payload, cas)` of the missing
Couchbase wrapper; a conditional write succeeding only when the stored
version equals the supplied one, issuing a new version on success, failing
distinguishably on version mismatch or not-found. -/
def dbReplace (st : Store) (id : String) (doc : Obj) (cas : Nat) :
    Except DBError (MutationResult × Store) :=
  match lookupKey id st.docs with
  | none => .error .keyNotFound
  | some d =>
      if d.cas = cas then
        .ok (⟨d.cas + 1⟩,
             { st with docs := setKey id ⟨d.cas + 1, doc⟩ st.docs })
      else .error .casMismatch

/-- Modelled from the spec: `db.remove(id)` of the missing Couchbase
wrapper; deletes unconditionally, fails distinguishably when not found. -/
def dbRemove (st : Store) (id : String) : Except DBError Store :=
  match lookupKey id st.docs with
  | none => .error .keyNotFound
  | some _ => .ok { st with docs := eraseKey id st.docs }

/-- A row produced by the N1QL query of `find`: `meta().cas`, `meta().id`
and the document fields. -/
structure QueryRow where
  cas : Nat
  id : String
  fields : Obj
  deriving DecidableEq, Repr

/-- Modelled from the spec: execution of the N1QL query `SELECT meta().cas,
meta().id, bucket.* FROM bucket WHERE type = t` by the missing Couchbase
wrapper; returns a row for every document whose `type` field equals `t`. -/
def dbQuery (st : Store) (t : String) : List QueryRow :=
  (st.docs.filter
      (fun p => decide (lookupKey "type" p.2.value = some (JVal.str t)))).map
    (fun p => ⟨p.2.cas, p.1, p.2.value⟩)

/-- Modelled from the spec: `db.removeMetadataFromDoc` of the missing
Couchbase wrapper; strips the `id` and `cas` metadata keys from a payload. -/
def removeMetadataFromDoc (doc : Obj) : Obj :=
  eraseKey "cas" (eraseKey "id" doc)

/-- Modelled from the spec: one draw of `uuid.v1()`, a generator of fresh
globally-unique identifiers; the generator state is a counter and distinct
counter states yield distinct identifiers. -/
def uuidV1 (n : Nat) : String :=
  String.mk ('u' :: List.replicate n 'x')

/-- The pure core of `findByID` over the outcome of the awaited `db.get`
call: on success attaches `id` and `cas` beneath the stored value via
`Object.assign`, on failure logs once and throws the translated error. -/
def findByIDCore (id : String) (res : Except DBError StoredDoc) :
    Except DaoError Obj × List String :=
  match res with
  | .ok data =>
      (.ok (assignPairs [("id", .str id), ("cas", .num data.cas)] data.value),
       [])
  | .error e =>
      (.error (handleError e),
       ["DB findByID - " ++ DOC_TYPE ++ " - " ++ e.message])

/-- `findByID(id)` composed with the backend model. -/
def findByID (st : Store) (id : String) : Except DaoError Obj × List String :=
  findByIDCore id (dbGet st id)

/-- The pure core of `find` over the outcome of the awaited `db.query`
call. -/
def findCore (res : Except DBError (List QueryRow)) :
    Except DaoError (List QueryRow) × List String :=
  match res with
  | .ok rows => (.ok rows, [])
  | .error e =>
      (.error (handleError e),
       ["DB find - " ++ DOC_TYPE ++ " - " ++ e.message])

/-- `find()` composed with the backend model. -/
def find (st : Store) : Except DaoError (List QueryRow) × List String :=
  findCore (.ok (dbQuery st DOC_TYPE))

/-- The payload `insert` writes: the caller payload with `type` set to the
discriminator (`doc.type = DOC_TYPE`), nothing stripped. -/
def insertPayload (doc : Obj) : Obj :=
  setKey "type" (JVal.str DOC_TYPE) doc

/-- The result `insert` returns on success: the backend mutation result
with the document id attached (`data.id = id`). -/
structure InsertData where
  cas : Nat
  id : String
  deriving DecidableEq, Repr

/-- The pure core of `insert` over the outcome of the awaited `db.insert`
call; on failure logs once, throws the translated error, and leaves the
bucket as it was. -/
def insertCore (st : Store) (id : String)
    (res : Except DBError (MutationResult × Store)) :
    (Except DaoError InsertData × List String) × Store :=
  match res with
  | .ok (data, st') => ((.ok ⟨data.cas, id⟩, []), st')
  | .error e =>
      ((.error (handleError e),
        ["DB insert - " ++ DOC_TYPE ++ " - " ++ e.message]), st)

/-- `insert(doc, id)`; when `id` is omitted the default parameter draws a
fresh identifier from `uuid.v1()`, advancing the generator state. -/
def insert (st : Store) (doc : Obj) (idOpt : Option String) :
    (Except DaoError InsertData × List String) × Store :=
  match idOpt with
  | some id => insertCore st id (dbInsert st id (insertPayload doc))
  | none =>
      let id := uuidV1 st.uuidCtr
      let st1 := { st with uuidCtr := st.uuidCtr + 1 }
      insertCore st1 id (dbInsert st1 id (insertPayload doc))

/-- The payload `update` writes: metadata keys stripped, then `type` re-set
to the discriminator. -/
def updatePayload (doc : Obj) : Obj :=
  setKey "type" (JVal.str DOC_TYPE) (removeMetadataFromDoc doc)

/-- The `id` destructured from the update payload (`const {id, cas} = doc`). -/
def docId (doc : Obj) : String :=
  match lookupKey "id" doc with
  | some (.str s) => s
  | _ => ""

/-- The `cas` destructured from the update payload (`const {id, cas} = doc`). -/
def docCas (doc : Obj) : Nat :=
  match lookupKey "cas" doc with
  | some (.num n) => n
  | _ => 0

/-- The pure core of `update` over the outcome of the awaited `db.replace`
call; on failure logs once, throws the translated error, and leaves the
bucket as it was. -/
def updateCore (st : Store)
    (res : Except DBError (MutationResult × Store)) :
    (Except DaoError MutationResult × List String) × Store :=
  match res with
  | .ok (data, st') => ((.ok data, []), st')
  | .error e =>
      ((.error (handleError e),
        ["DB update - " ++ DOC_TYPE ++ " - " ++ e.message]), st)

/-- `update(doc)` composed with the backend model. -/
def update (st : Store) (doc : Obj) :
    (Except DaoError MutationResult × List String) × Store :=
  updateCore st (dbReplace st (docId doc) (updatePayload doc) (docCas doc))

/-- The pure core of `remove` over the outcome of the awaited `db.remove`
call; on failure logs once, throws the translated error, and leaves the
bucket as it was. -/
def removeCore (st : Store) (res : Except DBError Store) :
    (Except DaoError Unit × List String) × Store :=
  match res with
  | .ok st' => ((.ok (), []), st')
  | .error e =>
      ((.error (handleError e),
        ["DB remove - " ++ DOC_TYPE ++ " - " ++ e.message]), st)

/-- `remove(id)` composed with the backend model. -/
def remove (st : Store) (id : String) :
    (Except DaoError Unit × List String) × Store :=
  removeCore st (dbRemove st id)

/-- The empty bucket with the UUID generator at zero. -/
def emptyStore : Store := ⟨[], 0⟩

section KVLemmas

variable {β : Type}

theorem lookupKey_cons (k : String) (p : String × β) (l : List (String × β)) :
    lookupKey k (p :: l) = if p.1 = k then some p.2 else lookupKey k l := rfl

theorem lookupKey_setKey_self (k : String) (v : β) (l : List (String × β)) :
    lookupKey k (setKey k v l) = some v := by
  induction l with
  | nil => simp [setKey, lookupKey]
  | cons p rest ih =>
      by_cases h : p.1 = k
      · simp [setKey, h, lookupKey]
      · simp [setKey, h, lookupKey, ih]

theorem lookupKey_setKey_ne (k k' : String) (v : β) (l : List (String × β))
    (h : k' ≠ k) : lookupKey k (setKey k' v l) = lookupKey k l := by
  induction l with
  | nil => simp [setKey, lookupKey, h]
  | cons p rest ih =>
      by_cases hp : p.1 = k'
      · have hpk : p.1 ≠ k := by rw [hp]; exact h
        simp [setKey, hp, lookupKey, h, hpk]
      · simp [setKey, hp, lookupKey, ih]

theorem eraseKey_cons_self {k : String} {p : String × β} (l : List (String × β))
    (hp : p.1 = k) : eraseKey k (p :: l) = eraseKey k l := by
  simp [eraseKey, List.filter_cons, hp]

theorem eraseKey_cons_ne {k : String} {p : String × β} (l : List (String × β))
    (hp : p.1 ≠ k) : eraseKey k (p :: l) = p :: eraseKey k l := by
  simp [eraseKey, List.filter_cons, hp]

theorem lookupKey_eraseKey_self (k : String) (l : List (String × β)) :
    lookupKey k (eraseKey k l) = none := by
  induction l with
  | nil => rfl
  | cons p rest ih =>
      by_cases h : p.1 = k
      · rw [eraseKey_cons_self rest h]; exact ih
      · rw [eraseKey_cons_ne rest h, lookupKey_cons, if_neg h]; exact ih

theorem lookupKey_eraseKey_ne (k k' : String) (l : List (String × β))
    (h : k' ≠ k) : lookupKey k' (eraseKey k l) = lookupKey k' l := by
  induction l with
  | nil => rfl
  | cons p rest ih =>
      by_cases hp : p.1 = k
      · have hpk : p.1 ≠ k' := by rw [hp]; exact fun he => h he.symm
        rw [eraseKey_cons_self rest hp, ih, lookupKey_cons, if_neg hpk]
      · rw [eraseKey_cons_ne rest hp, lookupKey_cons, lookupKey_cons, ih]

theorem lookupKey_append_of_none (k : String) (l₁ l₂ : List (String × β))
    (h : lookupKey k l₁ = none) :
    lookupKey k (l₁ ++ l₂) = lookupKey k l₂ := by
  induction l₁ with
  | nil => rfl
  | cons p rest ih =>
      by_cases hp : p.1 = k
      · simp [lookupKey, hp] at h
      · have h2 : lookupKey k rest = none := by simpa [lookupKey, hp] using h
        simpa [lookupKey, hp] using ih h2

theorem lookupKey_eq_none_of_not_mem (k : String) (l : List (String × β))
    (h : k ∉ l.map Prod.fst) : lookupKey k l = none := by
  induction l with
  | nil => rfl
  | cons p rest ih =>
      simp only [List.map_cons, List.mem_cons] at h
      push_neg at h
      have hp : p.1 ≠ k := fun he => h.1 he.symm
      simpa [lookupKey, hp] using ih h.2

end KVLemmas

theorem objWF_cons {p : String × JVal} {s : Obj} (h : objWF (p :: s)) :
    objWF s ∧ p.1 ∉ s.map Prod.fst := by
  unfold objWF at h ⊢
  rw [List.map_cons, List.nodup_cons] at h
  exact ⟨h.2, h.1⟩

theorem assignPairs_cons (t : Obj) (p : String × JVal) (s : Obj) :
    assignPairs t (p :: s) = assignPairs (setKey p.1 p.2 t) s := rfl

theorem lookupKey_assignPairs_of_none (t s : Obj) (k : String)
    (h : lookupKey k s = none) :
    lookupKey k (assignPairs t s) = lookupKey k t := by
  induction s generalizing t with
  | nil => rfl
  | cons p rest ih =>
      by_cases hp : p.1 = k
      · simp [lookupKey, hp] at h
      · have h2 : lookupKey k rest = none := by simpa [lookupKey, hp] using h
        rw [assignPairs_cons, ih _ h2, lookupKey_setKey_ne k p.1 p.2 t hp]

theorem lookupKey_assignPairs_of_some (t s : Obj) (k : String) (v : JVal)
    (hwf : objWF s) (h : lookupKey k s = some v) :
    lookupKey k (assignPairs t s) = some v := by
  induction s generalizing t with
  | nil => simp [lookupKey] at h
  | cons p rest ih =>
      obtain ⟨hwf2, hnm⟩ := objWF_cons hwf
      by_cases hp : p.1 = k
      · have hv : p.2 = v := by simpa [lookupKey, hp] using h
        have hrest : lookupKey k rest = none := by
          apply lookupKey_eq_none_of_not_mem
          rw [← hp]; exact hnm
        rw [assignPairs_cons, lookupKey_assignPairs_of_none _ _ _ hrest, hp,
            lookupKey_setKey_self, hv]
      · have h2 : lookupKey k rest = some v := by simpa [lookupKey, hp] using h
        rw [assignPairs_cons]
        exact ih _ hwf2 h2

theorem uuidV1_injective (n m : Nat) (h : n ≠ m) : uuidV1 n ≠ uuidV1 m := by
  intro he
  apply h
  have hd : ('u' :: List.replicate n 'x') = ('u' :: List.replicate m 'x') :=
    congrArg String.data he
  have hl := congrArg List.length hd
  simpa using hl

/-- A concrete update payload used to instantiate hypotheses. -/
def docW : Obj := [("id", JVal.str "a"), ("cas", JVal.num 5),
                   ("language", JVal.str "fr")]

/-- A concrete bucket holding one setting document used to instantiate
hypotheses. -/
def stW : Store := ⟨[("a", ⟨5, [("language", JVal.str "en")]⟩)], 0⟩

/-- Claim C1: for a document carrying id and version from a prior read,
update performs a conditional write succeeding only when the stored version
matches, returning a new version on success, failing with VersionConflict
on a mismatch and with NotFound when the id does not exist; after a
successful update at version v1, repeating the update with the stale v1
fails with VersionConflict. -/
theorem C1_update_conditional_write (st : Store) (doc : Obj) (id : String)
    (v1 : Nat)
    (hid : lookupKey "id" doc = some (.str id))
    (hcas : lookupKey "cas" doc = some (.num v1)) :
    (∀ d : StoredDoc, lookupKey id st.docs = some d →
      (d.cas = v1 →
        update st doc = ((.ok ⟨v1 + 1⟩, []),
          ⟨setKey id ⟨v1 + 1, updatePayload doc⟩ st.docs, st.uuidCtr⟩) ∧
        v1 + 1 ≠ v1 ∧
        (update (update st doc).2 doc).1.1 = .error .versionConflict) ∧
      (d.cas ≠ v1 →
        update st doc = ((.error .versionConflict,
          ["DB update - " ++ DOC_TYPE ++ " - " ++ DBError.casMismatch.message]),
          st))) ∧
    (lookupKey id st.docs = none →
      update st doc = ((.error .notFound,
        ["DB update - " ++ DOC_TYPE ++ " - " ++ DBError.keyNotFound.message]),
        st)) := by
  constructor
  · intro d hd
    constructor
    · intro hc
      have h1 : update st doc = ((.ok ⟨v1 + 1⟩, []),
          ⟨setKey id ⟨v1 + 1, updatePayload doc⟩ st.docs, st.uuidCtr⟩) := by
        simp [update, docId, docCas, hid, hcas, dbReplace, hd, hc, updateCore]
      refine ⟨h1, Nat.succ_ne_self v1, ?_⟩
      rw [h1]
      simp [update, docId, docCas, hid, hcas, dbReplace,
            lookupKey_setKey_self, updateCore, handleError]
    · intro hc
      simp [update, docId, docCas, hid, hcas, dbReplace, hd, hc, updateCore,
            handleError]
  · intro hnone
    simp [update, docId, docCas, hid, hcas, dbReplace, hnone, updateCore,
          handleError]

/-- Witness for C1 at a concrete bucket and payload. -/
theorem C1_update_conditional_write_witness :
    lookupKey "id" docW = some (JVal.str "a") ∧
    lookupKey "cas" docW = some (JVal.num 5) ∧
    (update stW docW).1.1 = .ok ⟨6⟩ ∧
    (update (update stW docW).2 docW).1.1 = .error .versionConflict := by
  have h := C1_update_conditional_write stW docW "a" 5 (by decide) (by decide)
  have h2 := (h.1 ⟨5, [("language", JVal.str "en")]⟩ (by decide)).1 rfl
  refine ⟨by decide, by decide, ?_, h2.2.2⟩
  rw [h2.1]

/-- Claim C2 (amended): update strips the id and cas metadata keys from the
payload before writing; insert does not strip them, writing every non-type
key of the caller payload unchanged, so a document inserted with a payload
containing an id or cas key retains it. -/
theorem C2_update_strips_metadata (doc : Obj) (k : String)
    (hk : k ≠ "type") :
    lookupKey "id" (updatePayload doc) = none ∧
    lookupKey "cas" (updatePayload doc) = none ∧
    lookupKey k (insertPayload doc) = lookupKey k doc := by
  refine ⟨?_, ?_, ?_⟩
  · rw [updatePayload, lookupKey_setKey_ne _ _ _ _ (by decide : "type" ≠ "id"),
        removeMetadataFromDoc,
        lookupKey_eraseKey_ne _ _ _ (by decide : "id" ≠ "cas"),
        lookupKey_eraseKey_self]
  · rw [updatePayload, lookupKey_setKey_ne _ _ _ _ (by decide : "type" ≠ "cas"),
        removeMetadataFromDoc, lookupKey_eraseKey_self]
  · rw [insertPayload, lookupKey_setKey_ne _ _ _ _ (fun he => hk he.symm)]

/-- Witness for C2 (amended) at the cas key and a concrete payload. -/
theorem C2_update_strips_metadata_witness :
    ("cas" : String) ≠ "type" ∧
    (lookupKey "id" (updatePayload docW) = none ∧
     lookupKey "cas" (updatePayload docW) = none ∧
     lookupKey "cas" (insertPayload docW) = lookupKey "cas" docW) :=
  ⟨by decide, C2_update_strips_metadata docW "cas" (by decide)⟩

/-- Counterexample to claim C2 as stated: inserting a payload that contains
a cas key stores a document whose field set contains that cas key. -/
theorem C2_counterexample :
    (lookupKey "a" ((insert emptyStore [("cas", JVal.num 7)] (some "a")).2.docs)).map
        (fun d => lookupKey "cas" d.value) = some (some (JVal.num 7)) := by
  decide

/-- Claim C3: insert and update both set the type field of the written
payload to the discriminator, overwriting any caller-supplied type value,
and the document stored by a successful insert or update is exactly that
payload, so every written document has type equal to the discriminator. -/
theorem C3_type_discriminator (st : Store) (doc : Obj) (id : String) :
    lookupKey "type" (insertPayload doc) = some (JVal.str DOC_TYPE) ∧
    lookupKey "type" (updatePayload doc) = some (JVal.str DOC_TYPE) ∧
    (lookupKey id st.docs = none →
      lookupKey id ((insert st doc (some id)).2).docs =
        some ⟨1, insertPayload doc⟩) ∧
    (∀ d : StoredDoc, lookupKey id st.docs = some d →
      lookupKey "id" doc = some (.str id) →
      lookupKey "cas" doc = some (.num d.cas) →
      lookupKey id ((update st doc).2).docs =
        some ⟨d.cas + 1, updatePayload doc⟩) := by
  refine ⟨lookupKey_setKey_self _ _ _, lookupKey_setKey_self _ _ _, ?_, ?_⟩
  · intro hnone
    simp [insert, dbInsert, hnone, insertCore]
    rw [lookupKey_append_of_none _ _ _ hnone, lookupKey_cons]
    simp
  · intro d hd hid hcas
    simp [update, docId, docCas, hid, hcas, dbReplace, hd, updateCore]
    rw [lookupKey_setKey_self]

/-- Witness for C3 at a concrete bucket and payload. -/
theorem C3_type_discriminator_witness :
    (lookupKey "a" stW.docs = none → False) ∧
    lookupKey "type" (insertPayload docW) = some (JVal.str DOC_TYPE) ∧
    lookupKey "b" ((insert stW docW (some "b")).2).docs =
      some ⟨1, insertPayload docW⟩ ∧
    lookupKey "a" ((update stW docW).2).docs =
      some ⟨6, updatePayload docW⟩ := by
  have h := C3_type_discriminator stW docW "b"
  have h2 := C3_type_discriminator stW docW "a"
  exact ⟨by decide, h.1, h.2.2.1 (by decide),
         h2.2.2.2 ⟨5, [("language", JVal.str "en")]⟩ (by decide) (by decide)
           (by decide)⟩

/-- Claim C4 (amended): on success findByID returns the stored field values
with the backend version and the requested id merged beneath them, so every
stored field value is preserved and the id and cas are attached whenever
the stored field set does not itself contain an id or cas key; it fails
with NotFound when no document exists and with BackendError wrapping any
other retrieval failure. -/
theorem C4_findByID_contract (st : Store) (id : String) :
    (∀ d : StoredDoc, lookupKey id st.docs = some d →
      findByID st id =
        (.ok (assignPairs [("id", .str id), ("cas", .num d.cas)] d.value),
         []) ∧
      (objWF d.value →
        (∀ k v, lookupKey k d.value = some v →
          lookupKey k
            (assignPairs [("id", .str id), ("cas", .num d.cas)] d.value) =
            some v) ∧
        (lookupKey "id" d.value = none →
          lookupKey "id"
            (assignPairs [("id", .str id), ("cas", .num d.cas)] d.value) =
            some (.str id)) ∧
        (lookupKey "cas" d.value = none →
          lookupKey "cas"
            (assignPairs [("id", .str id), ("cas", .num d.cas)] d.value) =
            some (.num d.cas)))) ∧
    (lookupKey id st.docs = none →
      findByID st id = (.error .notFound,
        ["DB findByID - " ++ DOC_TYPE ++ " - " ++ DBError.keyNotFound.message])) ∧
    (∀ msg, findByIDCore id (.error (.other msg)) =
      (.error (.backendError msg),
       ["DB findByID - " ++ DOC_TYPE ++ " - " ++ msg])) := by
  refine ⟨?_, ?_, ?_⟩
  · intro d hd
    constructor
    · simp [findByID, dbGet, hd, findByIDCore]
    · intro hwf
      refine ⟨?_, ?_, ?_⟩
      · intro k v hv
        exact lookupKey_assignPairs_of_some _ _ _ _ hwf hv
      · intro hnone
        rw [lookupKey_assignPairs_of_none _ _ _ hnone]
        rfl
      · intro hnone
        rw [lookupKey_assignPairs_of_none _ _ _ hnone]
        rfl
  · intro hnone
    simp [findByID, dbGet, hnone, findByIDCore, handleError]
  · intro msg
    rfl

/-- Witness for C4 (amended) at a concrete bucket. -/
theorem C4_findByID_contract_witness :
    lookupKey "a" stW.docs = some ⟨5, [("language", JVal.str "en")]⟩ ∧
    objWF [("language", JVal.str "en")] ∧
    (findByID stW "a").1 = .ok [("id", JVal.str "a"), ("cas", JVal.num 5),
                                ("language", JVal.str "en")] ∧
    lookupKey "id"
      (assignPairs [("id", .str "a"), ("cas", .num 5)]
        [("language", JVal.str "en")]) = some (.str "a") := by
  have h := (C4_findByID_contract stW "a").1 ⟨5, [("language", JVal.str "en")]⟩
    (by decide)
  refine ⟨by decide, by decide, ?_, (h.2 (by decide)).2.1 (by decide)⟩
  rw [h.1]
  rfl

/-- Counterexample to claim C4 as stated: a document whose stored field set
contains an id key (reachable, since insert strips nothing) is returned
with that stored value under the id key rather than the requested id. -/
theorem C4_counterexample :
    ((findByID ((insert emptyStore [("id", JVal.str "b")] (some "a")).2)
        "a").1).map (lookupKey "id") = .ok (some (JVal.str "b")) ∧
    JVal.str "b" ≠ JVal.str "a" :=
  ⟨rfl, by decide⟩

/-- Claim C5: insert draws a fresh identifier from the generator when the
id is omitted (distinct generator states yield distinct identifiers, and
the generator state advances), returns the written document id with its
initial version on success, and a second insert under the same explicit id
fails with AlreadyExists. -/
theorem C5_insert_contract (st st2 : Store) (doc doc2 : Obj) (id : String) :
    (∀ n m : Nat, n ≠ m → uuidV1 n ≠ uuidV1 m) ∧
    (lookupKey (uuidV1 st.uuidCtr) st.docs = none →
      insert st doc none =
        ((.ok ⟨1, uuidV1 st.uuidCtr⟩, []),
         ⟨st.docs ++ [(uuidV1 st.uuidCtr, ⟨1, insertPayload doc⟩)],
          st.uuidCtr + 1⟩)) ∧
    (lookupKey id st2.docs = none →
      insert st2 doc (some id) = ((.ok ⟨1, id⟩, []),
        ⟨st2.docs ++ [(id, ⟨1, insertPayload doc⟩)], st2.uuidCtr⟩) ∧
      ((insert (insert st2 doc (some id)).2 doc2 (some id)).1).1 =
        .error .alreadyExists) := by
  refine ⟨uuidV1_injective, ?_, ?_⟩
  · intro hnone
    simp [insert, dbInsert, hnone, insertCore]
  · intro hnone
    have h1 : insert st2 doc (some id) = ((.ok ⟨1, id⟩, []),
        ⟨st2.docs ++ [(id, ⟨1, insertPayload doc⟩)], st2.uuidCtr⟩) := by
      simp [insert, dbInsert, hnone, insertCore]
    refine ⟨h1, ?_⟩
    rw [h1]
    have h2 : lookupKey id (st2.docs ++ [(id, (⟨1, insertPayload doc⟩ : StoredDoc))]) =
        some ⟨1, insertPayload doc⟩ := by
      rw [lookupKey_append_of_none _ _ _ hnone, lookupKey_cons]
      simp
    simp [insert, dbInsert, h2, insertCore, handleError]

/-- Witness for C5 at a concrete bucket and payload. -/
theorem C5_insert_contract_witness :
    lookupKey (uuidV1 0) emptyStore.docs = none ∧
    lookupKey "b" stW.docs = none ∧
    (insert emptyStore docW none).1.1 = .ok ⟨1, uuidV1 0⟩ ∧
    (insert emptyStore docW none).2.uuidCtr = 1 ∧
    ((insert (insert stW docW (some "b")).2 docW (some "b")).1).1 =
      .error .alreadyExists := by
  have h := C5_insert_contract emptyStore stW docW docW "b"
  have h2 := h.2.1 (by decide)
  have h3 := h.2.2 (by decide)
  refine ⟨by decide, by decide, ?_, ?_, h3.2⟩
  · rw [h2]
    rfl
  · rw [h2]
    rfl

/-- Claim C6: find returns all and only the stored documents whose type
field equals the discriminator, one row per matching document carrying its
id, version and fields, so a bucket holding N matching and M non-matching
documents yields exactly N rows; a query failure is re-thrown translated,
with generic failures becoming BackendError. -/
theorem C6_find_returns_matching (st : Store) :
    find st = (.ok (dbQuery st DOC_TYPE), []) ∧
    (dbQuery st DOC_TYPE).length =
      st.docs.countP
        (fun p => decide (lookupKey "type" p.2.value = some (JVal.str DOC_TYPE))) ∧
    (∀ row ∈ dbQuery st DOC_TYPE,
      lookupKey "type" row.fields = some (JVal.str DOC_TYPE) ∧
      (row.id, (⟨row.cas, row.fields⟩ : StoredDoc)) ∈ st.docs) ∧
    (∀ id d, (id, d) ∈ st.docs →
      lookupKey "type" d.value = some (JVal.str DOC_TYPE) →
      (⟨d.cas, id, d.value⟩ : QueryRow) ∈ dbQuery st DOC_TYPE) ∧
    (∀ e : DBError, (findCore (.error e)).1 = .error (handleError e)) ∧
    (∀ msg, handleError (.other msg) = .backendError msg) := by
  refine ⟨rfl, ?_, ?_, ?_, fun e => rfl, fun msg => rfl⟩
  · rw [dbQuery, List.length_map, List.countP_eq_length_filter]
  · intro row hrow
    rw [dbQuery, List.mem_map] at hrow
    obtain ⟨p, hp, hrow⟩ := hrow
    rw [List.mem_filter] at hp
    subst hrow
    exact ⟨by simpa using hp.2, hp.1⟩
  · intro id d hmem htype
    rw [dbQuery, List.mem_map]
    exact ⟨(id, d), List.mem_filter.mpr ⟨hmem, by simpa using htype⟩, rfl⟩

/-- Witness for C6 at a concrete bucket holding one matching and one
non-matching document. -/
theorem C6_find_returns_matching_witness :
    (("a", (⟨3, [("type", JVal.str "setting")]⟩ : StoredDoc)) ∈
      (⟨[("a", ⟨3, [("type", JVal.str "setting")]⟩),
         ("b", ⟨4, [("type", JVal.str "employee")]⟩)], 0⟩ : Store).docs) ∧
    lookupKey "type" [("type", JVal.str "setting")] =
      some (JVal.str DOC_TYPE) ∧
    (dbQuery (⟨[("a", ⟨3, [("type", JVal.str "setting")]⟩),
                ("b", ⟨4, [("type", JVal.str "employee")]⟩)], 0⟩ : Store)
        DOC_TYPE).length = 1 ∧
    (⟨3, "a", [("type", JVal.str "setting")]⟩ : QueryRow) ∈
      dbQuery (⟨[("a", ⟨3, [("type", JVal.str "setting")]⟩),
                 ("b", ⟨4, [("type", JVal.str "employee")]⟩)], 0⟩ : Store)
        DOC_TYPE := by
  have h := C6_find_returns_matching
    (⟨[("a", ⟨3, [("type", JVal.str "setting")]⟩),
       ("b", ⟨4, [("type", JVal.str "employee")]⟩)], 0⟩ : Store)
  refine ⟨by decide, by decide, ?_, ?_⟩
  · rw [h.2.1]
    decide
  · exact h.2.2.2.1 "a" ⟨3, [("type", JVal.str "setting")]⟩ (by decide)
      (by decide)

/-- Claim C7: remove deletes the document unconditionally, with no version
check (it succeeds whatever the stored version is), fails with NotFound
when the document is absent, and after a successful remove a findByID of
the same id fails with NotFound. -/
theorem C7_remove_contract (st : Store) (id : String) :
    (∀ d : StoredDoc, lookupKey id st.docs = some d →
      remove st id = ((.ok (), []), ⟨eraseKey id st.docs, st.uuidCtr⟩) ∧
      (findByID (remove st id).2 id).1 = .error .notFound) ∧
    (lookupKey id st.docs = none →
      remove st id = ((.error .notFound,
        ["DB remove - " ++ DOC_TYPE ++ " - " ++ DBError.keyNotFound.message]),
        st)) := by
  constructor
  · intro d hd
    have h1 : remove st id = ((.ok (), []),
        ⟨eraseKey id st.docs, st.uuidCtr⟩) := by
      simp [remove, dbRemove, hd, removeCore]
    refine ⟨h1, ?_⟩
    rw [h1]
    simp [findByID, dbGet, lookupKey_eraseKey_self, findByIDCore, handleError]
  · intro hnone
    simp [remove, dbRemove, hnone, removeCore, handleError]

/-- Witness for C7 at a concrete bucket. -/
theorem C7_remove_contract_witness :
    lookupKey "a" stW.docs = some ⟨5, [("language", JVal.str "en")]⟩ ∧
    (remove stW "a").1.1 = .ok () ∧
    (findByID (remove stW "a").2 "a").1 = .error .notFound ∧
    lookupKey "b" stW.docs = none ∧
    (remove stW "b").1.1 = .error .notFound := by
  have h := (C7_remove_contract stW "a").1 ⟨5, [("language", JVal.str "en")]⟩
    (by decide)
  have h2 := (C7_remove_contract stW "b").2 (by decide)
  refine ⟨by decide, ?_, h.2, by decide, ?_⟩
  · rw [h.1]
  · rw [h2]

/-- Claim C8: every one of the five operations, on any backend failure,
logs the failure exactly once with the operation name, the document type
and the underlying message, re-throws it translated through the
error-translation function, leaves the bucket untouched, and never exposes
a backend-native error: the raised error is always one of the four
taxonomy kinds. -/
theorem C8_error_propagation (st : Store) (id : String) (e : DBError) :
    findByIDCore id (.error e) =
      (.error (handleError e),
       ["DB findByID - " ++ DOC_TYPE ++ " - " ++ e.message]) ∧
    findCore (.error e) =
      (.error (handleError e),
       ["DB find - " ++ DOC_TYPE ++ " - " ++ e.message]) ∧
    insertCore st id (.error e) =
      ((.error (handleError e),
        ["DB insert - " ++ DOC_TYPE ++ " - " ++ e.message]), st) ∧
    updateCore st (.error e) =
      ((.error (handleError e),
        ["DB update - " ++ DOC_TYPE ++ " - " ++ e.message]), st) ∧
    removeCore st (.error e) =
      ((.error (handleError e),
        ["DB remove - " ++ DOC_TYPE ++ " - " ++ e.message]), st) ∧
    (handleError e = .notFound ∨ handleError e = .alreadyExists ∨
     handleError e = .versionConflict ∨
     handleError e = .backendError e.message) := by
  refine ⟨rfl, rfl, rfl, rfl, rfl, ?_⟩
  cases e <;> simp [handleError, DBError.message]

/-- Claim C9: findByID merges the attached id and cas metadata beneath the
stored value, so a stored field set containing an id or cas key overrides
the metadata in the returned object, and such stored documents are
reachable because insert writes the caller payload without stripping those
keys. -/
theorem C9_stored_metadata_overrides (st : Store) (id : String) :
    (∀ (d : StoredDoc) (v : JVal), lookupKey id st.docs = some d →
      objWF d.value → lookupKey "id" d.value = some v →
      (findByID st id).1 =
        .ok (assignPairs [("id", .str id), ("cas", .num d.cas)] d.value) ∧
      lookupKey "id"
        (assignPairs [("id", .str id), ("cas", .num d.cas)] d.value) =
        some v) ∧
    (∀ (d : StoredDoc) (v : JVal), lookupKey id st.docs = some d →
      objWF d.value → lookupKey "cas" d.value = some v →
      lookupKey "cas"
        (assignPairs [("id", .str id), ("cas", .num d.cas)] d.value) =
        some v) ∧
    (∀ (doc : Obj) (v : JVal), lookupKey id st.docs = none →
      lookupKey "cas" doc = some v →
      lookupKey id ((insert st doc (some id)).2).docs =
        some ⟨1, insertPayload doc⟩ ∧
      lookupKey "cas" (insertPayload doc) = some v) ∧
    (∀ (doc : Obj) (v : JVal), lookupKey "id" doc = some v →
      lookupKey "id" (insertPayload doc) = some v) := by
  refine ⟨?_, ?_, ?_, ?_⟩
  · intro d v hd hwf hv
    constructor
    · simp [findByID, dbGet, hd, findByIDCore]
    · exact lookupKey_assignPairs_of_some _ _ _ _ hwf hv
  · intro d v _ hwf hv
    exact lookupKey_assignPairs_of_some _ _ _ _ hwf hv
  · intro doc v hnone hv
    constructor
    · simp [insert, dbInsert, hnone, insertCore]
      rw [lookupKey_append_of_none _ _ _ hnone, lookupKey_cons]
      simp
    · rw [insertPayload,
          lookupKey_setKey_ne _ _ _ _ (by decide : "type" ≠ "cas")]
      exact hv
  · intro doc v hv
    rw [insertPayload,
        lookupKey_setKey_ne _ _ _ _ (by decide : "type" ≠ "id")]
    exact hv

/-- Witness for C9 at a concrete bucket whose stored document carries its
own id and cas fields. -/
theorem C9_stored_metadata_overrides_witness :
    lookupKey "a"
      (⟨[("a", ⟨5, [("id", JVal.str "b"), ("cas", JVal.num 9)]⟩)], 0⟩ :
        Store).docs = some ⟨5, [("id", JVal.str "b"), ("cas", JVal.num 9)]⟩ ∧
    objWF [("id", JVal.str "b"), ("cas", JVal.num 9)] ∧
    lookupKey "id"
      (assignPairs [("id", .str "a"), ("cas", .num 5)]
        [("id", JVal.str "b"), ("cas", JVal.num 9)]) = some (JVal.str "b") ∧
    lookupKey "cas"
      (assignPairs [("id", .str "a"), ("cas", .num 5)]
        [("id", JVal.str "b"), ("cas", JVal.num 9)]) = some (JVal.num 9) ∧
    lookupKey "cas" (insertPayload [("cas", JVal.num 9)]) =
      some (JVal.num 9) := by
  have h := C9_stored_metadata_overrides
    (⟨[("a", ⟨5, [("id", JVal.str "b"), ("cas", JVal.num 9)]⟩)], 0⟩ : Store)
    "a"
  have h2 := C9_stored_metadata_overrides emptyStore "a"
  refine ⟨by decide, by decide, ?_, ?_, ?_⟩
  · exact (h.1 ⟨5, [("id", JVal.str "b"), ("cas", JVal.num 9)]⟩
      (JVal.str "b") (by decide) (by decide) (by decide)).2
  · exact h.2.1 ⟨5, [("id", JVal.str "b"), ("cas", JVal.num 9)]⟩
      (JVal.num 9) (by decide) (by decide) (by decide)
  · exact (h2.2.2.1 [("cas", JVal.num 9)] (JVal.num 9) (by decide)
      (by decide)).2

end SettingDao

namespace LocalAuth

/-- A user record as seen by the local strategy: the password-comparison
capability, which may itself fail. -/
structure User where
  name : String
  comparePassword : String → Except String Bool

/-- The outcome of the strategy verify callback: `callback(err)`,
`callback(null, false, messageInfo)`, or `callback(null, user)`. -/
inductive AuthOutcome where
  | err (e : String)
  | fail (message : String)
  | success (user : User)

/-- The embedding of the JavaScript `email.toLowerCase()` call: lowercases
every character of the string. -/
def lowercase (s : String) : String :=
  String.mk (s.data.map Char.toLower)

/-- The verify callback of the passport LocalStrategy, paired with the
number of times `user.comparePassword` was invoked. The lookup capability
`findOne` models `User.findOne({email: ...})`. -/
def verify (findOne : String → Except String (Option User))
    (email password : String) : AuthOutcome × Nat :=
  match findOne (lowercase email) with
  | .error e => (.err e, 0)
  | .ok none => (.fail "This email is not registered.", 0)
  | .ok (some user) =>
      match user.comparePassword password with
      | .error e => (.err e, 1)
      | .ok false => (.fail "This password is not correct.", 1)
      | .ok true => (.success user, 1)

/-- A concrete user record used to instantiate hypotheses. -/
def userW : User := ⟨"bob", fun p => .ok (p == "pw")⟩

/-- A concrete lookup capability used to instantiate hypotheses. -/
def findOneW : String → Except String (Option User) :=
  fun s => if s = "bob@x.com" then .ok (some userW) else .ok none

/-- Claim C10: the local strategy lowercases the supplied email before the
user lookup (the outcome depends only on the lookup at the lowercased
email); when no user is found it fails immediately with the message for an
unregistered email without invoking comparePassword; comparePassword is
invoked exactly once when a user was found, and a non-matching password
fails with the distinct wrong-password message. -/
theorem C10_local_strategy
    (findOne g : String → Except String (Option User))
    (email password : String) :
    (findOne (lowercase email) = g (lowercase email) →
      verify findOne email password = verify g email password) ∧
    (findOne (lowercase email) = .ok none →
      verify findOne email password =
        (.fail "This email is not registered.", 0)) ∧
    (∀ u, findOne (lowercase email) = .ok (some u) →
      (verify findOne email password).2 = 1 ∧
      (u.comparePassword password = .ok false →
        verify findOne email password =
          (.fail "This password is not correct.", 1)) ∧
      (u.comparePassword password = .ok true →
        verify findOne email password = (.success u, 1))) ∧
    ("This email is not registered." ≠ "This password is not correct.") := by
  refine ⟨?_, ?_, ?_, by decide⟩
  · intro h
    rw [verify, verify, h]
  · intro h
    rw [verify, h]
  · intro u hu
    have hred : verify findOne email password =
        (match u.comparePassword password with
         | .error e => (AuthOutcome.err e, 1)
         | .ok false => (AuthOutcome.fail "This password is not correct.", 1)
         | .ok true => (AuthOutcome.success u, 1)) := by
      rw [verify, hu]
    refine ⟨?_, ?_, ?_⟩
    · rw [hred]
      cases hc : u.comparePassword password with
      | error e => rfl
      | ok b => cases b <;> rfl
    · intro hp
      rw [hred, hp]
    · intro hp
      rw [hred, hp]

/-- Witness for C10 at a concrete user and lookup capability. -/
theorem C10_local_strategy_witness :
    findOneW (lowercase "zoe@x.com") = .ok none ∧
    verify findOneW "zoe@x.com" "pw" =
      (.fail "This email is not registered.", 0) ∧
    findOneW (lowercase "BOB@X.com") = .ok (some userW) ∧
    userW.comparePassword "nope" = .ok false ∧
    verify findOneW "BOB@X.com" "nope" =
      (.fail "This password is not correct.", 1) ∧
    userW.comparePassword "pw" = .ok true ∧
    verify findOneW "BOB@X.com" "pw" = (.success userW, 1) := by
  have h1 := (C10_local_strategy findOneW findOneW "zoe@x.com" "pw").2.1 rfl
  have h2 := (C10_local_strategy findOneW findOneW "BOB@X.com" "nope").2.2.1
    userW rfl
  have h3 := (C10_local_strategy findOneW findOneW "BOB@X.com" "pw").2.2.1
    userW rfl
  exact ⟨rfl, h1, rfl, rfl, h2.2.1 rfl, rfl, h3.2.2 rfl⟩

end LocalAuth
